import Mathlib

/-!
Shallow embedding of `src/kmol/model/executors.py` (executor hierarchy:
Trainer / Predictor / Evaluator / Pipeliner / LearningRareFinder), with the
control-flow and state logic the specification talks about translated into
executable Lean definitions, and the specified properties proved or refuted
against them.

Modelling conventions: Python floats become `ℚ` (the file only adds,
multiplies and compares them); `-np.inf`, the initial best metric, becomes
`⊥ : WithBot ℚ`; state blobs (model / optimizer / scheduler state dicts)
become opaque `ℕ` tokens; a key that may be absent from a mapping becomes an
`Option`; code that can raise becomes `Except`.
-/

/-! ## AbstractExecutor._load_checkpoint (executors.py lines 78-96) -/

/-- The executor state `_load_checkpoint` can touch: the network weights
(always overwritten by `network.load_checkpoint`), the optimizer and
scheduler objects (`none` when the executor has none, mirroring
`self.optimizer`/`self.scheduler` being `None`), and `_start_epoch`. -/
structure ExecState where
  weights : ℕ
  optimizerState : Option ℕ
  schedulerState : Option ℕ
  startEpoch : ℕ
deriving DecidableEq

/-- A checkpoint file as `torch.load` returns it: the `model` entry is always
present (the network was saved from it), each of the other keys may be
absent (`none`). -/
structure Checkpoint where
  model : ℕ
  optimizer : Option ℕ
  scheduler : Option ℕ
  epoch : Option ℕ
deriving DecidableEq

/-- `AbstractExecutor._load_checkpoint(train)`: the network weights are
restored unconditionally; then, only when `not config.is_finetuning and
train`, the optimizer state is restored when `self.optimizer` is set and the
`"optimizer"` key is present, the scheduler state when `self.scheduler` is
set and the `"scheduler"` key is present, and `_start_epoch` when the
`"epoch"` key is present. -/
def load_checkpoint (is_finetuning train : Bool) (info : Checkpoint) (st : ExecState) :
    ExecState :=
  let st1 : ExecState := { st with weights := info.model }
  if is_finetuning = false ∧ train = true then
    let st2 : ExecState :=
      match st1.optimizerState, info.optimizer with
      | some _, some o => { st1 with optimizerState := some o }
      | _, _ => st1
    let st3 : ExecState :=
      match st2.schedulerState, info.scheduler with
      | some _, some s => { st2 with schedulerState := some s }
      | _, _ => st2
    match info.epoch with
    | some e => { st3 with startEpoch := e }
    | none => st3
  else
    st1

/-! ## Trainer._check_best (executors.py lines 228-238) -/

/-- `Trainer._check_best(epoch, val_metrics, best_metric)`.  `val_metrics` is
`none` when `_validation` returned the empty `Namespace()` (no validation
loader), otherwise `some m` with `m` the configured target metric's mean.
`best_metric` starts at `-np.inf`, modelled as `⊥ : WithBot ℚ`.  Returns the
new `best_metric`, the `new_best` flag, and the save log (`Trainer.save` is
called exactly when `new_best`; the epoch is appended to the log when it
fires). -/
def check_best (epoch : ℕ) (val_metrics : Option ℚ) (best_metric : WithBot ℚ)
    (saves : List ℕ) : WithBot ℚ × Bool × List ℕ :=
  let r : Bool × WithBot ℚ :=
    match val_metrics with
    | none => (true, best_metric)
    | some m => (decide (best_metric < (m : WithBot ℚ)), (m : WithBot ℚ))
  if r.1 then (r.2, r.1, saves ++ [epoch]) else (best_metric, r.1, saves)

/-! ## Trainer.run epoch loop (executors.py line 158) -/

/-- Python `range(a, b)`: the integers `a, a+1, …, b-1`, empty when `b ≤ a`. -/
def pyRange (a b : ℕ) : List ℕ :=
  List.range' a (b - a)

/-- The epochs `Trainer.run` executes:
`for epoch in range(self._start_epoch + 1, self.config.epochs + 1)`. -/
def trainer_epochs (start_epoch epochs : ℕ) : List ℕ :=
  pyRange (start_epoch + 1) (epochs + 1)

/-! ## Trainer.save (executors.py lines 255-269) -/

/-- A value of the saved checkpoint mapping: the epoch index or a state
blob. -/
inductive CkptVal where
  | natVal (n : ℕ)
  | blob (b : ℕ)
deriving DecidableEq

/-- The slice of `Config` that `Trainer.save` reads. -/
structure TrainerSaveConfig where
  overwrite_checkpoint : Bool
  output_path : String
deriving DecidableEq

/-- `Trainer.save(epoch)`: the `info` mapping in insertion order and the path
the file is written to.  `suffix = "best" if config.overwrite_checkpoint else
epoch`; the path is `Path(output_path) / f"checkpoint.{suffix}.pt"`. -/
def save_checkpoint (cfg : TrainerSaveConfig) (epoch model optimizer scheduler : ℕ) :
    List (String × CkptVal) × String :=
  let info : List (String × CkptVal) :=
    [("epoch", CkptVal.natVal epoch), ("model", CkptVal.blob model),
     ("optimizer", CkptVal.blob optimizer), ("scheduler", CkptVal.blob scheduler)]
  let suffix : String := if cfg.overwrite_checkpoint then "best" else toString epoch
  (info, cfg.output_path ++ "/" ++ ("checkpoint." ++ suffix ++ ".pt"))

/-! ## Theorems -/

/-- C3: for every `_load_checkpoint(train)` call, the network weights are
always restored from the checkpoint; optimizer state, scheduler state and
resume epoch are restored only when `train` is true and the configuration is
not fine-tuning (otherwise all three are left unchanged), and each of the
three only when its key is present in the checkpoint (an absent key leaves
the corresponding executor state unchanged); when the guard holds and the
key is present, the component really is taken from the checkpoint. -/
theorem load_checkpoint_spec :
    ∀ (ft train : Bool) (info : Checkpoint) (st : ExecState),
    (load_checkpoint ft train info st).weights = info.model
    ∧ (¬ (train = true ∧ ft = false) →
        load_checkpoint ft train info st = { st with weights := info.model })
    ∧ (info.optimizer = none →
        (load_checkpoint ft train info st).optimizerState = st.optimizerState)
    ∧ (info.scheduler = none →
        (load_checkpoint ft train info st).schedulerState = st.schedulerState)
    ∧ (info.epoch = none →
        (load_checkpoint ft train info st).startEpoch = st.startEpoch)
    ∧ (∀ e, train = true → ft = false → info.epoch = some e →
        (load_checkpoint ft train info st).startEpoch = e)
    ∧ (∀ o p, train = true → ft = false → info.optimizer = some o →
        st.optimizerState = some p →
        (load_checkpoint ft train info st).optimizerState = some o)
    ∧ (∀ s p, train = true → ft = false → info.scheduler = some s →
        st.schedulerState = some p →
        (load_checkpoint ft train info st).schedulerState = some s) := by
  intro ft train info st
  obtain ⟨m, io, is, ie⟩ := info
  obtain ⟨w, so, ss, se⟩ := st
  cases ft <;> cases train <;>
    cases io <;> cases is <;> cases ie <;> cases so <;> cases ss <;>
      simp [load_checkpoint]

/-- C4 counterexample: loading is not atomic across the start epoch and the
optimizer/scheduler state.  With an optimizer and a scheduler present on the
executor and a checkpoint that carries only the `"epoch"` key, a training
(non-fine-tuning) load restores the start epoch (3 becomes 7) while the
optimizer and scheduler state are left untouched — a strict non-empty subset
of the three is restored. -/
theorem load_checkpoint_not_atomic :
    (load_checkpoint false true ⟨10, none, none, some 7⟩ ⟨0, some 1, some 2, 3⟩).startEpoch = 7
    ∧ (load_checkpoint false true ⟨10, none, none, some 7⟩ ⟨0, some 1, some 2, 3⟩).startEpoch ≠ 3
    ∧ (load_checkpoint false true ⟨10, none, none, some 7⟩ ⟨0, some 1, some 2, 3⟩).optimizerState
        = some 1
    ∧ (load_checkpoint false true ⟨10, none, none, some 7⟩ ⟨0, some 1, some 2, 3⟩).schedulerState
        = some 2 := by
  decide

/-- C4 (amended): the three components are restored independently, each
guarded by its own test — the start epoch by the presence of the `"epoch"`
key, the optimizer state by the executor having an optimizer and the
`"optimizer"` key, the scheduler state by the executor having a scheduler
and the `"scheduler"` key, all under `train ∧ ¬ fine-tuning`; so a load may
restore any subset of the three. -/
theorem load_checkpoint_components :
    ∀ (ft train : Bool) (info : Checkpoint) (st : ExecState),
    (load_checkpoint ft train info st).startEpoch =
      (match ft, train, info.epoch with
       | false, true, some e => e
       | _, _, _ => st.startEpoch)
    ∧ (load_checkpoint ft train info st).optimizerState =
      (match ft, train, st.optimizerState, info.optimizer with
       | false, true, some _, some o => some o
       | _, _, _, _ => st.optimizerState)
    ∧ (load_checkpoint ft train info st).schedulerState =
      (match ft, train, st.schedulerState, info.scheduler with
       | false, true, some _, some s => some s
       | _, _, _, _ => st.schedulerState)
    ∧ (load_checkpoint ft train info st).weights = info.model := by
  intro ft train info st
  obtain ⟨m, io, is, ie⟩ := info
  obtain ⟨w, so, ss, se⟩ := st
  cases ft <;> cases train <;>
    cases io <;> cases is <;> cases ie <;> cases so <;> cases ss <;>
      simp [load_checkpoint]

/-- C1: in every epoch of `Trainer.run`, when no validation was run
(`val_metrics = none`) the epoch is always a new best and a checkpoint is
saved while the best value is left unchanged; when validation ran, the epoch
is a new best exactly when the target metric's mean is strictly greater than
the best seen so far (a tie is not an improvement), and a checkpoint is
saved exactly in that case. -/
theorem check_best_spec :
    ∀ (epoch : ℕ) (m : ℚ) (best : WithBot ℚ) (saves : List ℕ),
    check_best epoch none best saves = (best, true, saves ++ [epoch])
    ∧ ((check_best epoch (some m) best saves).2.1 = true ↔ best < (m : WithBot ℚ))
    ∧ (best < (m : WithBot ℚ) →
        check_best epoch (some m) best saves = ((m : WithBot ℚ), true, saves ++ [epoch]))
    ∧ (¬ best < (m : WithBot ℚ) →
        check_best epoch (some m) best saves = (best, false, saves))
    ∧ ((m : WithBot ℚ) = best →
        check_best epoch (some m) best saves = (best, false, saves)) := by
  intro epoch m best saves
  refine ⟨rfl, ?_, ?_, ?_, ?_⟩
  · by_cases h : best < (m : WithBot ℚ) <;> simp [check_best, h]
  · intro h; simp [check_best, h]
  · intro h; simp [check_best, h]
  · intro h; simp [check_best, h, lt_irrefl]

/-- C6: `Trainer.run` executes its epoch loop exactly for the epochs
`start_epoch + 1` through `epochs` inclusive, in strictly increasing order;
when the resume epoch is at least the configured epoch count, no epoch is
executed. -/
theorem trainer_epochs_spec :
    ∀ (start_epoch epochs : ℕ),
    (∀ k, k ∈ trainer_epochs start_epoch epochs ↔ start_epoch + 1 ≤ k ∧ k ≤ epochs)
    ∧ List.Sorted (· < ·) (trainer_epochs start_epoch epochs)
    ∧ (epochs ≤ start_epoch → trainer_epochs start_epoch epochs = []) := by
  intro s e
  refine ⟨?_, ?_, ?_⟩
  · intro k
    rw [trainer_epochs, pyRange, List.mem_range'_1]
    omega
  · exact List.pairwise_lt_range' _ _
  · intro h
    have : e + 1 - (s + 1) = 0 := by omega
    simp [trainer_epochs, pyRange, this]

/-- C7: every checkpoint `Trainer.save` persists is the mapping with exactly
the keys `epoch`, `model`, `optimizer`, `scheduler` (the epoch index and the
three state blobs, in that order), written to
`<output_path>/checkpoint.<suffix>.pt` where the suffix is the literal
`"best"` when `overwrite_checkpoint` is set and the decimal epoch number
otherwise. -/
theorem save_checkpoint_spec :
    ∀ (cfg : TrainerSaveConfig) (epoch model optimizer scheduler : ℕ),
    (save_checkpoint cfg epoch model optimizer scheduler).1 =
      [("epoch", CkptVal.natVal epoch), ("model", CkptVal.blob model),
       ("optimizer", CkptVal.blob optimizer), ("scheduler", CkptVal.blob scheduler)]
    ∧ ((save_checkpoint cfg epoch model optimizer scheduler).1.map Prod.fst =
        ["epoch", "model", "optimizer", "scheduler"])
    ∧ (cfg.overwrite_checkpoint = true →
        (save_checkpoint cfg epoch model optimizer scheduler).2 =
          cfg.output_path ++ "/" ++ "checkpoint.best.pt")
    ∧ (cfg.overwrite_checkpoint = false →
        (save_checkpoint cfg epoch model optimizer scheduler).2 =
          cfg.output_path ++ "/" ++ ("checkpoint." ++ toString epoch ++ ".pt")) := by
  intro cfg epoch model optimizer scheduler
  refine ⟨rfl, rfl, ?_, ?_⟩
  · intro h; simp [save_checkpoint, h]
  · intro h; simp [save_checkpoint, h]

/-! ## Predictor.set_hook_probe / Predictor.run probe phase (executors.py lines 311-324) -/

/-- What `isinstance(self.network, EnsembleNetwork)` can see of the network. -/
inductive NetKind where
  | ensemble
  | plain
deriving DecidableEq

/-- `Predictor.set_hook_probe`: raises `ValueError` when the network is an
`EnsembleNetwork`, otherwise attaches `HookProbe(network, probe_layer)`
(modelled by returning the probed layer). -/
def set_hook_probe (network : NetKind) (probe_layer : ℕ) : Except String ℕ :=
  match network with
  | NetKind.ensemble => Except.error "Probing hidden layers is not defined for Ensembles."
  | NetKind.plain => Except.ok probe_layer

/-- The probe phase of `Predictor.run`: `if self.config.probe_layer is not
None: self.set_hook_probe()`.  Returns the probe attached for the batch
(`none` when no probe layer is configured), or the raised configuration
error. -/
def predictor_probe_phase (network : NetKind) (probe_layer : Option ℕ) :
    Except String (Option ℕ) :=
  match probe_layer with
  | some layer => (set_hook_probe network layer).map some
  | none => Except.ok none

/-! ## Pipeliner.find_all_checkpoints (executors.py lines 408-411) -/

/-- `Pipeliner.find_all_checkpoints`: the `*.pt` paths found under the
output directory (`checkpoint_paths` is the `rglob` enumeration), sorted by
path length (`sorted(..., key=len)`). -/
def find_all_checkpoints (checkpoint_paths : List String) : List String :=
  checkpoint_paths.mergeSort (fun a b => decide (a.length ≤ b.length))

/-- C8: with a probe layer configured, `Predictor.run` fails with a raised
configuration error exactly when the network is an ensemble; on a
non-ensemble network the probe is attached and no error is raised; with no
probe layer configured nothing is attached and nothing raised. -/
theorem predictor_probe_spec :
    ∀ (layer : ℕ) (network : NetKind),
    predictor_probe_phase NetKind.ensemble (some layer) =
      Except.error "Probing hidden layers is not defined for Ensembles."
    ∧ predictor_probe_phase NetKind.plain (some layer) = Except.ok (some layer)
    ∧ predictor_probe_phase network none = Except.ok none := by
  intro layer network
  exact ⟨rfl, rfl, rfl⟩

/-- C9: `Pipeliner.find_all_checkpoints` returns exactly the discovered
checkpoint files (a permutation of the enumeration) ordered by
non-decreasing path length, and — being a pure function of the directory
enumeration — it returns the identical list on every repeated call over the
same file set. -/
theorem find_all_checkpoints_spec :
    ∀ (checkpoint_paths : List String),
    (find_all_checkpoints checkpoint_paths).Perm checkpoint_paths
    ∧ (find_all_checkpoints checkpoint_paths).Pairwise
        (fun a b => a.length ≤ b.length)
    ∧ (∀ rescan : List String, rescan = checkpoint_paths →
        find_all_checkpoints rescan = find_all_checkpoints checkpoint_paths) := by
  intro paths
  refine ⟨List.mergeSort_perm paths _, ?_, ?_⟩
  · exact (List.sorted_mergeSort
      (by intro a b c h1 h2; simp_all; omega)
      (by intro a b; simp; omega) paths).imp (by simp)
  · intro rescan h; rw [h]

/-! ## AbstractExecutor._to_device / dict_to_device (executors.py lines 46-76) -/

/-- A Python value as `_to_device` inspects it: a tensor (carrying the device
it lives on and an identity), a `dict`, a `list`, or any other object. -/
inductive PyVal where
  | tensor (dev : ℕ) (id : ℕ)
  | pydict (entries : List (String × PyVal))
  | pylist (elems : List PyVal)
  | other (id : ℕ)

/-- The exceptions `_to_device` can meet: `AttributeError` (an object with no
`.to`, caught by the handler together with `ValueError`) and `IndexError`
(from `values[0]`, not in the handler's tuple). -/
inductive PyExc where
  | attrError
  | indexError
deriving DecidableEq

mutual
/-- One value of `dict_to_device`: `if type(v) is dict` recurse, `elif`
tensor-like move it, `else` keep it. -/
def dict_value_to_device (device : ℕ) : PyVal → PyVal
  | PyVal.pydict d => PyVal.pydict (dict_to_device device d)
  | PyVal.tensor _ i => PyVal.tensor device i
  | v => v
/-- `AbstractExecutor.dict_to_device`: rebuilds the mapping entry by entry;
it never raises. -/
def dict_to_device (device : ℕ) : List (String × PyVal) → List (String × PyVal)
  | [] => []
  | (k, v) :: rest => (k, dict_value_to_device device v) :: dict_to_device device rest
end

/-- `a.to(self._device)` on an arbitrary object: moves a tensor, raises
`AttributeError` on anything without a `.to` method. -/
def tensor_to (device : ℕ) : PyVal → Except PyExc PyVal
  | PyVal.tensor _ i => Except.ok (PyVal.tensor device i)
  | _ => Except.error PyExc.attrError

/-- `[a.to(self._device) for a in values]`, evaluated left to right; the
first element without `.to` raises. -/
def list_elems_to (device : ℕ) : List PyVal → Except PyExc (List PyVal)
  | [] => Except.ok []
  | a :: rest =>
      match tensor_to device a with
      | Except.ok w =>
          match list_elems_to device rest with
          | Except.ok ws => Except.ok (w :: ws)
          | Except.error e => Except.error e
      | Except.error e => Except.error e

/-- The body of the per-key `try` in `_to_device`: tensor-like values are
moved, a `dict` goes through `dict_to_device`, a `list` is inspected at
`values[0]` — raising `IndexError` when it is empty — and mapped through
`.to` when its first element is a tensor, copied unchanged otherwise; any
other value is kept as is. -/
def transfer_value (device : ℕ) : PyVal → Except PyExc PyVal
  | PyVal.tensor _ i => Except.ok (PyVal.tensor device i)
  | PyVal.pydict d => Except.ok (PyVal.pydict (dict_to_device device d))
  | PyVal.pylist [] => Except.error PyExc.indexError
  | PyVal.pylist (a :: rest) =>
      match a with
      | PyVal.tensor _ _ =>
          match list_elems_to device (a :: rest) with
          | Except.ok ws => Except.ok (PyVal.pylist ws)
          | Except.error e => Except.error e
      | _ => Except.ok (PyVal.pylist (a :: rest))
  | PyVal.other i => Except.ok (PyVal.other i)

/-- The `try`/`except (AttributeError, ValueError)` around the body:
a caught exception logs and leaves `batch.inputs[key]` unchanged;
`IndexError` is not caught and propagates. -/
def transfer_entry (device : ℕ) (v : PyVal) : Except PyExc PyVal :=
  match transfer_value device v with
  | Except.ok w => Except.ok w
  | Except.error PyExc.attrError => Except.ok v
  | Except.error e => Except.error e

/-- The value a key holds after a `transfer_entry` that did not propagate:
the transferred value, or the original when the move was caught. -/
def transfer_entry_total (device : ℕ) (v : PyVal) : PyVal :=
  match transfer_value device v with
  | Except.ok w => w
  | Except.error _ => v

/-- The `for key, values in batch.inputs.items()` loop of `_to_device`. -/
def to_device_inputs (device : ℕ) : List (String × PyVal) → Except PyExc (List (String × PyVal))
  | [] => Except.ok []
  | (k, v) :: rest =>
      match transfer_entry device v with
      | Except.ok w =>
          match to_device_inputs device rest with
          | Except.ok ws => Except.ok ((k, w) :: ws)
          | Except.error e => Except.error e
      | Except.error e => Except.error e

/-- A batch: named inputs plus the ground-truth outputs. -/
structure PyBatch where
  inputs : List (String × PyVal)
  outputs : PyVal

/-- `AbstractExecutor._to_device`: `batch.outputs = batch.outputs.to(device)`
first (outside any handler), then the per-key input loop. -/
def to_device (device : ℕ) (b : PyBatch) : Except PyExc PyBatch :=
  match tensor_to device b.outputs with
  | Except.error e => Except.error e
  | Except.ok outs =>
      match to_device_inputs device b.inputs with
      | Except.error e => Except.error e
      | Except.ok ins => Except.ok ⟨ins, outs⟩

/-- `values == PyVal.pylist []`, the one input shape whose transfer raises
past the handler. -/
def is_empty_list : PyVal → Bool
  | PyVal.pylist [] => true
  | _ => false

def is_tensor : PyVal → Bool
  | PyVal.tensor _ _ => true
  | _ => false

/-- A tensor moved to `device`; anything else untouched. -/
def moved (device : ℕ) : PyVal → PyVal
  | PyVal.tensor _ i => PyVal.tensor device i
  | v => v

lemma list_elems_to_ne_index (device : ℕ) :
    ∀ l : List PyVal, list_elems_to device l ≠ Except.error PyExc.indexError := by
  intro l
  induction l with
  | nil => simp [list_elems_to]
  | cons a rest ih =>
      cases a with
      | tensor d i =>
          simp only [list_elems_to, tensor_to]
          cases h : list_elems_to device rest with
          | ok ws => simp
          | error e =>
              cases e with
              | attrError => simp
              | indexError => exact absurd h ih
      | pydict d => simp [list_elems_to, tensor_to]
      | pylist l2 => simp [list_elems_to, tensor_to]
      | other i => simp [list_elems_to, tensor_to]

lemma transfer_value_ne_index (device : ℕ) (v : PyVal)
    (h : is_empty_list v = false) :
    transfer_value device v ≠ Except.error PyExc.indexError := by
  cases v with
  | tensor d i => simp [transfer_value]
  | pydict d => simp [transfer_value]
  | other i => simp [transfer_value]
  | pylist l =>
      cases l with
      | nil => simp [is_empty_list] at h
      | cons a rest =>
          cases a with
          | tensor d i =>
              simp only [transfer_value]
              cases hl : list_elems_to device (PyVal.tensor d i :: rest) with
              | ok ws => simp
              | error e =>
                  cases e with
                  | attrError => simp
                  | indexError => exact absurd hl (list_elems_to_ne_index device _)
          | pydict d2 => simp [transfer_value]
          | pylist l2 => simp [transfer_value]
          | other i => simp [transfer_value]

lemma transfer_entry_eq (device : ℕ) (v : PyVal) (h : is_empty_list v = false) :
    transfer_entry device v = Except.ok (transfer_entry_total device v) := by
  unfold transfer_entry transfer_entry_total
  cases hv : transfer_value device v with
  | ok w => rfl
  | error e =>
      cases e with
      | attrError => rfl
      | indexError => exact absurd hv (transfer_value_ne_index device v h)

lemma to_device_inputs_eq (device : ℕ) :
    ∀ l : List (String × PyVal), (∀ p ∈ l, is_empty_list p.2 = false) →
    to_device_inputs device l =
      Except.ok (l.map fun p => (p.1, transfer_entry_total device p.2)) := by
  intro l
  induction l with
  | nil => intro _; rfl
  | cons p rest ih =>
      intro h
      obtain ⟨k, v⟩ := p
      have hv : is_empty_list v = false := h (k, v) (List.mem_cons_self _ _)
      have hrest := ih fun q hq => h q (List.mem_cons_of_mem _ hq)
      simp only [to_device_inputs, transfer_entry_eq device v hv, hrest, List.map_cons]

/-- C5 counterexample: device transfer can raise.  A batch whose inputs hold
the empty list reaches `values[0]`, which raises `IndexError`; `IndexError`
is not in the `except (AttributeError, ValueError)` tuple, so `_to_device`
propagates it instead of logging and passing the value through. -/
theorem to_device_empty_list_raises :
    to_device 1 ⟨[("x", PyVal.pylist [])], PyVal.tensor 0 0⟩ =
      Except.error PyExc.indexError := rfl

/-- C5 (amended): for every batch whose outputs are a tensor and none of
whose input values is the empty list, `_to_device` raises no exception:
every tensor-valued input entry is moved to the configured device, the
outputs tensor is moved, and every entry whose transfer the handler caught
(`AttributeError`) is left unchanged in the batch.  (With an empty-list
input value the uncaught `IndexError` of `to_device_empty_list_raises`
escapes instead.) -/
theorem to_device_no_raise (device : ℕ) (b : PyBatch)
    (hout : is_tensor b.outputs = true)
    (hinputs : ∀ p ∈ b.inputs, is_empty_list p.2 = false) :
    to_device device b =
      Except.ok ⟨b.inputs.map (fun p => (p.1, transfer_entry_total device p.2)),
                 moved device b.outputs⟩
    ∧ (∀ d i, transfer_entry_total device (PyVal.tensor d i) = PyVal.tensor device i)
    ∧ (∀ v : PyVal, transfer_value device v = Except.error PyExc.attrError →
        transfer_entry_total device v = v) := by
  refine ⟨?_, ?_, ?_⟩
  · obtain ⟨ins, outs⟩ := b
    cases outs <;> simp [is_tensor] at hout
    simp only [to_device, tensor_to, moved, to_device_inputs_eq device ins hinputs]
  · intro d i; rfl
  · intro v hv; simp [transfer_entry_total, hv]

/-- C5 amended-theorem witness: a concrete batch with a tensor, a non-tensor
scalar, a heterogeneous list and a nested dict transfers without raising. -/
theorem to_device_no_raise_witness :
    to_device 1 ⟨[("a", PyVal.tensor 0 5), ("b", PyVal.other 3),
                  ("c", PyVal.pylist [PyVal.tensor 0 1, PyVal.other 2]),
                  ("d", PyVal.pydict [("x", PyVal.tensor 0 7)])], PyVal.tensor 0 9⟩ =
      Except.ok ⟨[("a", PyVal.tensor 0 5), ("b", PyVal.other 3),
                  ("c", PyVal.pylist [PyVal.tensor 0 1, PyVal.other 2]),
                  ("d", PyVal.pydict [("x", PyVal.tensor 0 7)])].map
                    (fun p => (p.1, transfer_entry_total 1 p.2)),
                 moved 1 (PyVal.tensor 0 9)⟩
    ∧ (∀ d i, transfer_entry_total 1 (PyVal.tensor d i) = PyVal.tensor 1 i)
    ∧ (∀ v : PyVal, transfer_value 1 v = Except.error PyExc.attrError →
        transfer_entry_total 1 v = v) :=
  to_device_no_raise 1
    ⟨[("a", PyVal.tensor 0 5), ("b", PyVal.other 3),
      ("c", PyVal.pylist [PyVal.tensor 0 1, PyVal.other 2]),
      ("d", PyVal.pydict [("x", PyVal.tensor 0 7)])], PyVal.tensor 0 9⟩
    rfl (by intro p hp; fin_cases hp <;> rfl)

/-! ## LearningRareFinder (executors.py lines 437-521)

The class constants, `track_best_loss`, and the `for iteration in
range(NUM_ITERATION)` loop of `run`.  A non-empty data loader is modelled by
the stream `losses : ℕ → ℚ` of raw batch losses (the loader is restarted on
`StopIteration`, so a loss exists at every iteration) and the stream
`lrs : ℕ → ℚ` of learning rates `_get_learning_rate()` reads.  The guard
`if self.SMOOTHING_FACTOR > 0` always holds for the constant `0.05`. -/

def SMOOTHING_FACTOR : ℚ := 1/20

def DIVERGENCE_THRESHOLD : ℚ := 5

def NUM_ITERATION : ℕ := 100

/-- `LearningRareFinder.track_best_loss(iteration, loss)`: at iteration 0 the
best loss is set to the raw loss, which is also returned as the smoothed
loss; afterwards the smoothed loss blends the raw loss with the last entry
of `history["loss"]`, and the best loss is lowered when the smoothed loss
undercuts it.  Returns `(smoothed loss, new best loss)`. -/
def track_best_loss (iteration : ℕ) (loss : ℚ) (loss_history : List ℚ) (best_loss : ℚ) :
    ℚ × ℚ :=
  if iteration = 0 then (loss, loss)
  else
    let smooth_loss := SMOOTHING_FACTOR * loss +
      (1 - SMOOTHING_FACTOR) * (loss_history.getLast?.getD 0)
    (smooth_loss, if smooth_loss < best_loss then smooth_loss else best_loss)

/-- The iteration loop of `LearningRareFinder.run`: per iteration the
smoothed/best losses are updated, one learning rate and one smoothed loss
are appended to the history, and the loop breaks when the smoothed loss
exceeds `DIVERGENCE_THRESHOLD` times the best loss.  Returns
`(history["lr"], history["loss"], iterations performed)`. -/
def lr_finder_loop (losses lrs : ℕ → ℚ) :
    ℕ → ℕ → List ℚ → List ℚ → ℚ → List ℚ × List ℚ × ℕ
  | i, 0, lr_history, loss_history, _ => (lr_history, loss_history, i)
  | i, fuel + 1, lr_history, loss_history, best_loss =>
      match track_best_loss i (losses i) loss_history best_loss with
      | (smoothed, best2) =>
          if DIVERGENCE_THRESHOLD * best2 < smoothed then
            (lr_history ++ [lrs i], loss_history ++ [smoothed], i + 1)
          else
            lr_finder_loop losses lrs (i + 1) fuel
              (lr_history ++ [lrs i]) (loss_history ++ [smoothed]) best2

/-- `LearningRareFinder.run` over a non-empty loader: the loop entered with
`history = {"lr": [], "loss": []}` and the full `NUM_ITERATION` budget
(`best_loss` starts as `None` and is first written at iteration 0 before any
read; the initial `0` here is never read). -/
def lr_finder_run (losses lrs : ℕ → ℚ) : List ℚ × List ℚ × ℕ :=
  lr_finder_loop losses lrs 0 NUM_ITERATION [] [] 0

/-- The smoothed loss `track_best_loss` returns at iteration `i` of the run:
raw loss at 0, then the exponential blend with the previous smoothed loss
(the last history entry). -/
def smoothed_loss_at (losses : ℕ → ℚ) : ℕ → ℚ
  | 0 => losses 0
  | i + 1 => SMOOTHING_FACTOR * losses (i + 1) +
      (1 - SMOOTHING_FACTOR) * smoothed_loss_at losses i

/-- The best loss after the update at iteration `i` of the run: the running
minimum of the smoothed losses. -/
def best_loss_at (losses : ℕ → ℚ) : ℕ → ℚ
  | 0 => losses 0
  | i + 1 =>
      if smoothed_loss_at losses (i + 1) < best_loss_at losses i then
        smoothed_loss_at losses (i + 1)
      else best_loss_at losses i

/-- The divergence test at iteration `i`: the smoothed loss exceeds
`DIVERGENCE_THRESHOLD` (5) times the best smoothed loss recorded so far. -/
def diverges_at (losses : ℕ → ℚ) (i : ℕ) : Prop :=
  DIVERGENCE_THRESHOLD * best_loss_at losses i < smoothed_loss_at losses i

lemma track_best_loss_eq (losses : ℕ → ℚ) (i : ℕ) (lossH : List ℚ) (best : ℚ)
    (hinv : i = 0 ∨ (lossH.getLast? = some (smoothed_loss_at losses (i - 1)) ∧
      best = best_loss_at losses (i - 1))) :
    track_best_loss i (losses i) lossH best =
      (smoothed_loss_at losses i, best_loss_at losses i) := by
  cases i with
  | zero => simp [track_best_loss, smoothed_loss_at, best_loss_at]
  | succ k =>
      rcases hinv with h0 | ⟨hlast, hbest⟩
      · exact absurd h0 (Nat.succ_ne_zero k)
      · simp only [Nat.add_sub_cancel] at hlast hbest
        simp [track_best_loss, hlast, hbest, smoothed_loss_at, best_loss_at]

lemma lr_loop_spec (losses lrs : ℕ → ℚ) :
    ∀ (fuel i : ℕ) (lrH lossH : List ℚ) (best : ℚ),
    (i = 0 ∨ (lossH.getLast? = some (smoothed_loss_at losses (i - 1)) ∧
      best = best_loss_at losses (i - 1))) →
    i ≤ (lr_finder_loop losses lrs i fuel lrH lossH best).2.2
    ∧ (lr_finder_loop losses lrs i fuel lrH lossH best).2.2 ≤ i + fuel
    ∧ (fuel ≠ 0 → i < (lr_finder_loop losses lrs i fuel lrH lossH best).2.2)
    ∧ (lr_finder_loop losses lrs i fuel lrH lossH best).1.length =
        lrH.length + ((lr_finder_loop losses lrs i fuel lrH lossH best).2.2 - i)
    ∧ (lr_finder_loop losses lrs i fuel lrH lossH best).2.1.length =
        lossH.length + ((lr_finder_loop losses lrs i fuel lrH lossH best).2.2 - i)
    ∧ ((lr_finder_loop losses lrs i fuel lrH lossH best).2.2 < i + fuel →
        diverges_at losses ((lr_finder_loop losses lrs i fuel lrH lossH best).2.2 - 1))
    ∧ (∀ j, i ≤ j → j + 1 < (lr_finder_loop losses lrs i fuel lrH lossH best).2.2 →
        ¬ diverges_at losses j) := by
  intro fuel
  induction fuel with
  | zero =>
      intro i lrH lossH best _
      simp only [lr_finder_loop]
      refine ⟨le_refl i, by omega, by omega, by omega, by omega, by omega, ?_⟩
      intro j hij hj
      omega
  | succ f ih =>
      intro i lrH lossH best hinv
      have htrack := track_best_loss_eq losses i lossH best hinv
      by_cases hdiv : DIVERGENCE_THRESHOLD * best_loss_at losses i < smoothed_loss_at losses i
      · have hres : lr_finder_loop losses lrs i (f + 1) lrH lossH best =
            (lrH ++ [lrs i], lossH ++ [smoothed_loss_at losses i], i + 1) := by
          simp only [lr_finder_loop, htrack, if_pos hdiv]
        rw [hres]
        simp only [List.length_append, List.length_cons, List.length_nil]
        refine ⟨by omega, by omega, by omega, by omega, by omega, ?_, ?_⟩
        · intro _
          simpa [diverges_at] using hdiv
        · intro j hij hj
          omega
      · have hinv2 : i + 1 = 0 ∨
            ((lossH ++ [smoothed_loss_at losses i]).getLast? =
              some (smoothed_loss_at losses (i + 1 - 1)) ∧
              best_loss_at losses i = best_loss_at losses (i + 1 - 1)) := by
          right
          simp [List.getLast?_concat]
        have hres : lr_finder_loop losses lrs i (f + 1) lrH lossH best =
            lr_finder_loop losses lrs (i + 1) f
              (lrH ++ [lrs i]) (lossH ++ [smoothed_loss_at losses i])
              (best_loss_at losses i) := by
          simp only [lr_finder_loop, htrack, if_neg hdiv]
        obtain ⟨ih1, ih2, ih3, ih4, ih5, ih6, ih7⟩ :=
          ih (i + 1) (lrH ++ [lrs i]) (lossH ++ [smoothed_loss_at losses i])
            (best_loss_at losses i) hinv2
        rw [hres]
        simp only [List.length_append, List.length_cons, List.length_nil] at ih4 ih5
        refine ⟨by omega, by omega, by omega, by omega, by omega, ?_, ?_⟩
        · intro hlt
          exact ih6 (by omega)
        · intro j hij hj
          rcases Nat.eq_or_lt_of_le hij with hji | hji
          · intro hd
            exact hdiv (by simpa [diverges_at, ← hji] using hd)
          · exact ih7 j hji hj

/-- A loss stream that stays flat at 1 and jumps to 100 at the last
iteration of the budget: the divergence test first fires at iteration 99. -/
def cex_losses : ℕ → ℚ := fun i => if i = 99 then 100 else 1

lemma cex_smoothed (i : ℕ) (h : i ≤ 98) : smoothed_loss_at cex_losses i = 1 := by
  induction i with
  | zero => simp [smoothed_loss_at, cex_losses]
  | succ k ih =>
      have h99 : k + 1 ≠ 99 := by omega
      rw [smoothed_loss_at, ih (by omega)]
      simp only [cex_losses, if_neg h99, SMOOTHING_FACTOR]
      norm_num

lemma cex_best (i : ℕ) (h : i ≤ 98) : best_loss_at cex_losses i = 1 := by
  induction i with
  | zero => simp [best_loss_at, cex_losses]
  | succ k ih =>
      rw [best_loss_at, ih (by omega), cex_smoothed (k + 1) h]
      simp

lemma cex_not_div (i : ℕ) (h : i ≤ 98) : ¬ diverges_at cex_losses i := by
  rw [diverges_at, cex_smoothed i h, cex_best i h, DIVERGENCE_THRESHOLD]
  norm_num

lemma cex_div_99 : diverges_at cex_losses 99 := by
  have h99 : (99 : ℕ) = 98 + 1 := rfl
  have hs : smoothed_loss_at cex_losses 99 = 119 / 20 := by
    rw [h99, smoothed_loss_at, cex_smoothed 98 (by omega)]
    simp only [cex_losses, SMOOTHING_FACTOR]
    norm_num
  have hb : best_loss_at cex_losses 99 = 1 := by
    rw [h99, best_loss_at, cex_best 98 (by omega)]
    rw [← h99, hs]
    norm_num
  rw [diverges_at, hs, hb, DIVERGENCE_THRESHOLD]
  norm_num


lemma cex_run_count : (lr_finder_run cex_losses (fun _ => 0)).2.2 = 100 := by
  have hrun : lr_finder_run cex_losses (fun _ => 0) =
      lr_finder_loop cex_losses (fun _ => 0) 0 100 [] [] 0 := rfl
  obtain ⟨h1, h2, h3, h4, h5, h6, h7⟩ :=
    lr_loop_spec cex_losses (fun _ => 0) 100 0 [] [] 0 (Or.inl rfl)
  rw [hrun]
  by_contra hne
  have hlt : (lr_finder_loop cex_losses (fun _ => 0) 0 100 [] [] 0).2.2 < 100 := by omega
  have hdiv := h6 (by omega)
  have hpos := h3 (by omega)
  exact cex_not_div _ (by omega) hdiv

/-- C2 counterexample: with `cex_losses` the smoothed loss exceeds 5 times
the best smoothed loss at an iteration of the run (iteration 99), yet the
run does not stop strictly before exhausting the budget — it performs all
`NUM_ITERATION = 100` iterations, because the break fires only on the very
last one.  So "stops strictly before exhausting the budget iff the smoothed
loss exceeds 5x the best recorded so far at some iteration" is false as
stated. -/
theorem lr_finder_budget_cex :
    ¬ (((lr_finder_run cex_losses (fun _ => 0)).2.2 < NUM_ITERATION) ↔
        ∃ i < (lr_finder_run cex_losses (fun _ => 0)).2.2, diverges_at cex_losses i) := by
  rw [cex_run_count]
  intro hiff
  have h100 : (100 : ℕ) < NUM_ITERATION := hiff.mpr ⟨99, by omega, cex_div_99⟩
  have hN : NUM_ITERATION = 100 := rfl
  omega

/-- C2 (amended): `LearningRareFinder.run` performs at most
`NUM_ITERATION = 100` iterations, and it performs strictly fewer than the
budget if and only if the smoothed loss exceeds
`DIVERGENCE_THRESHOLD = 5` times the best smoothed loss recorded so far at
some executed iteration that is not the budget's last (index + 1 <
`NUM_ITERATION`); when the divergence test first fires exactly at the final
iteration, the break fires but the full budget has already been performed
(see `lr_finder_budget_cex`). -/
theorem lr_finder_budget (losses lrs : ℕ → ℚ) :
    (lr_finder_run losses lrs).2.2 ≤ NUM_ITERATION
    ∧ ((lr_finder_run losses lrs).2.2 < NUM_ITERATION ↔
        ∃ i, i < (lr_finder_run losses lrs).2.2 ∧ i + 1 < NUM_ITERATION ∧
          diverges_at losses i) := by
  have hrun : lr_finder_run losses lrs =
      lr_finder_loop losses lrs 0 NUM_ITERATION [] [] 0 := rfl
  have hN : NUM_ITERATION = 100 := rfl
  obtain ⟨h1, h2, h3, h4, h5, h6, h7⟩ :=
    lr_loop_spec losses lrs NUM_ITERATION 0 [] [] 0 (Or.inl rfl)
  rw [hrun]
  refine ⟨by omega, ?_, ?_⟩
  · intro hlt
    have hdiv := h6 (by omega)
    have hpos := h3 (by omega)
    exact ⟨(lr_finder_loop losses lrs 0 NUM_ITERATION [] [] 0).2.2 - 1, by omega, by omega, hdiv⟩
  · rintro ⟨i, hin, hlast, hdiv⟩
    by_contra hge
    exact absurd hdiv (h7 i (Nat.zero_le i) (by omega))

/-- C10: throughout `LearningRareFinder.run` the `"lr"` and `"loss"`
sequences of `history` grow in lockstep — each executed iteration (the
final, break-firing one included) appends exactly one learning rate and one
smoothed loss — so the two sequences persisted to `history.json` have equal
length, one entry per executed iteration, and in particular are
index-aligned. -/
theorem lr_finder_history_aligned (losses lrs : ℕ → ℚ) :
    (lr_finder_run losses lrs).1.length = (lr_finder_run losses lrs).2.2
    ∧ (lr_finder_run losses lrs).2.1.length = (lr_finder_run losses lrs).2.2 := by
  have hrun : lr_finder_run losses lrs =
      lr_finder_loop losses lrs 0 NUM_ITERATION [] [] 0 := rfl
  obtain ⟨h1, h2, h3, h4, h5, h6, h7⟩ :=
    lr_loop_spec losses lrs NUM_ITERATION 0 [] [] 0 (Or.inl rfl)
  rw [hrun]
  simp only [List.length_nil] at h4 h5
  omega
